import Mathlib

/-!
Verification of the noise-field generation and grid-classification core of
the project_fluorite repository, as a shallow embedding in Lean.

Embedding conventions:
* Python floats are modelled as rationals (`ℚ`); every arithmetic operation
  performed by the embedded code paths (sums of 0/1 indicators divided by 4,
  threshold comparisons, the normalization transforms) is exact.
* Fallible Python code (raising `ValueError`, `KeyError`, `IndexError`,
  `ZeroDivisionError`) is modelled in the `Except PyError` monad.
* The external gradient-noise primitive `noise.pnoise2`, with a layer's
  shape parameters already applied, is an uninterpreted function
  `pnoise : ℚ → ℚ → ℚ` of the two scaled coordinates.
* `random.randint` seeds and `random.choice` draws are threaded in as
  explicit parameters.
-/

namespace Fluorite

/-- Runtime errors raised by the embedded Python code paths. -/
inductive PyError where
  | valueError (msg : String)
  | keyError (key : String)
  | zeroDivisionError
  | indexError
  deriving Repr, DecidableEq

/-- Container for biome property ranges (src/biome/biome.py, `BiomeProperties`). -/
structure BiomeProperties where
  height : ℚ × ℚ
  humidity : ℚ × ℚ
  temperature : ℚ × ℚ
  mystical : ℚ × ℚ
  deriving Repr, DecidableEq

/-- Container for biome resource information (src/biome/biome.py, `BiomeResources`). -/
structure BiomeResources where
  type : String
  variant : String
  deriving Repr, DecidableEq

/-- A biome record (src/biome/biome.py, `Biome`). -/
structure Biome where
  name : String
  properties : BiomeProperties
  resources : BiomeResources
  color : ℤ × ℤ × ℤ
  deriving Repr, DecidableEq

/-- One axis check of `Biome._validate_properties`: first `min > max`, then the
`[0,1]` bound check, each raising `ValueError`. -/
def checkRange (prop : String) (r : ℚ × ℚ) : Except PyError Unit :=
  if r.1 > r.2 then .error (.valueError ("Invalid " ++ prop ++ " range"))
  else if ¬(0 ≤ r.1 ∧ r.1 ≤ 1 ∧ 0 ≤ r.2 ∧ r.2 ≤ 1) then
    .error (.valueError (prop ++ " values must be between 0 and 1"))
  else .ok ()

/-- `Biome.__init__`: build the record, then validate the four axis ranges in
field order (height, humidity, temperature, mystical).  No validation is
performed on the name, the resource strings or the color. -/
def mkBiome (name : String)
    (height_min height_max humidity_min humidity_max
     temperature_min temperature_max mystical_min mystical_max : ℚ)
    (resource_type resource_variant : String)
    (color : ℤ × ℤ × ℤ) : Except PyError Biome := do
  let props : BiomeProperties :=
    ⟨(height_min, height_max), (humidity_min, humidity_max),
     (temperature_min, temperature_max), (mystical_min, mystical_max)⟩
  checkRange "height" props.height
  checkRange "humidity" props.humidity
  checkRange "temperature" props.temperature
  checkRange "mystical" props.mystical
  pure ⟨name, props, ⟨resource_type, resource_variant⟩, color⟩

/-- A tuple of the four sampled environmental values fed to the classifiers. -/
structure EnvSample where
  height : ℚ
  humidity : ℚ
  temperature : ℚ
  mystical : ℚ
  deriving Repr, DecidableEq

/-- `Biome.matches`: all four sampled values lie inside the biome's closed ranges. -/
def Biome.matches (b : Biome) (s : EnvSample) : Bool :=
  decide (b.properties.height.1 ≤ s.height ∧ s.height ≤ b.properties.height.2) &&
  decide (b.properties.humidity.1 ≤ s.humidity ∧ s.humidity ≤ b.properties.humidity.2) &&
  decide (b.properties.temperature.1 ≤ s.temperature ∧ s.temperature ≤ b.properties.temperature.2) &&
  decide (b.properties.mystical.1 ≤ s.mystical ∧ s.mystical ≤ b.properties.mystical.2)

/-- One indicator term of the `BiomeMap._find_matching_biome` score:
`1.0` when the value lies inside the closed range, else `0.0`. -/
def axisIndicator (lo hi v : ℚ) : ℚ :=
  if lo ≤ v ∧ v ≤ hi then 1 else 0

/-- The per-biome score of `BiomeMap._find_matching_biome`:
the four axis indicators summed and divided by 4. -/
def axisScore (b : Biome) (s : EnvSample) : ℚ :=
  (axisIndicator b.properties.height.1 b.properties.height.2 s.height +
   axisIndicator b.properties.humidity.1 b.properties.humidity.2 s.humidity +
   axisIndicator b.properties.temperature.1 b.properties.temperature.2 s.temperature +
   axisIndicator b.properties.mystical.1 b.properties.mystical.2 s.mystical) / 4

/-- The best-match loop of `BiomeMap._find_matching_biome`: the tracked best is
replaced only when a biome's score is strictly greater than the best score. -/
def findLoop (s : EnvSample) : List Biome → Option Biome × ℚ → Option Biome × ℚ
  | [], acc => acc
  | b :: rest, acc =>
    if acc.2 < axisScore b s then findLoop s rest (some b, axisScore b s)
    else findLoop s rest acc

/-- `BiomeMap._find_matching_biome`: run the best-match loop from
`(None, 0.0)`, then return the best match only when the best score reached
at least `0.5`. -/
def findMatchingBiome (biomes : List Biome) (s : EnvSample) : Option Biome :=
  if 1/2 ≤ (findLoop s biomes (none, 0)).2 then (findLoop s biomes (none, 0)).1
  else none

/-- The cell loop of `BiomeMap._generate_biome_grid`, with the four noise maps
abstracted into a per-cell sampling function. -/
def generateBiomeGrid (biomes : List Biome) (sample : ℕ → ℕ → EnvSample)
    (gridWidth gridHeight : ℕ) : List (List (Option Biome)) :=
  (List.range gridHeight).map fun y =>
    (List.range gridWidth).map fun x => findMatchingBiome biomes (sample x y)

/-- The validation prefix of `MapManager.__init__` (src/map/map_manager.py):
dimensions and tile size must be positive, and at least one biome must be
provided. -/
def mapManagerCheck (width height tile_size : ℤ) (biomes : List Biome) :
    Except PyError Unit :=
  if width ≤ 0 ∨ height ≤ 0 ∨ tile_size ≤ 0 then
    .error (.valueError "Map dimensions and tile size must be positive")
  else if biomes.isEmpty then
    .error (.valueError "At least one biome must be provided")
  else .ok ()

/-- The first-match loop of `MapManager._find_matching_biome`: return the first
biome whose four ranges all contain the sampled values. -/
def mmFindLoop (s : EnvSample) : List Biome → Option Biome
  | [] => none
  | b :: rest => if b.matches s then some b else mmFindLoop s rest

/-- `MapManager._find_matching_biome`: first full match, else a random fallback
member.  `random.choice(biomes)` is modelled by an arbitrary draw `r`, picking
element `r % length`; the `none` result models the `IndexError` that
`random.choice` raises on an empty list. -/
def mmFindMatchingBiome (biomes : List Biome) (s : EnvSample) (r : ℕ) :
    Option Biome :=
  match mmFindLoop s biomes with
  | some b => some b
  | none => biomes[r % biomes.length]?

/-- The tile loop of `MapManager.generate_map`: each tile records its grid
coordinates and the biome chosen by `_find_matching_biome`; noise sampling and
the random fallback draws are abstracted into per-cell functions. -/
def mmGenerateMap (biomes : List Biome) (sample : ℕ → ℕ → EnvSample)
    (draw : ℕ → ℕ → ℕ) (width height : ℕ) :
    List (List (ℕ × ℕ × Option Biome)) :=
  (List.range height).map fun y =>
    (List.range width).map fun x =>
      (x, y, mmFindMatchingBiome biomes (sample x y) (draw x y))

/-- `NoiseParameters` from src/map/noise_layer.py; there `scale_factor`
defaults to `3.0`. -/
structure NoiseParameters where
  octaves : ℤ
  persistence : ℚ
  lacunarity : ℚ
  scale_factor : ℚ
  deriving Repr, DecidableEq

/-- Shape preset of `HeightNoiseLayer` (src/map/noise_layer.py). -/
def heightParams : NoiseParameters := ⟨2, 8/10, 2, 3⟩

/-- Shape preset of `HumidityNoiseLayer` (src/map/noise_layer.py). -/
def humidityParams : NoiseParameters := ⟨4, 1/2, 2, 3⟩

/-- Shape preset of `TemperatureNoiseLayer` (src/map/noise_layer.py). -/
def temperatureParams : NoiseParameters := ⟨4, 1/2, 2, 36/10⟩

/-- Shape preset of `MysticalNoiseLayer` (src/map/noise_layer.py). -/
def mysticalParams : NoiseParameters := ⟨6, 3/10, 2, 9⟩

/-- Python division together with its `ZeroDivisionError`. -/
def pydiv (a b : ℚ) : Except PyError ℚ :=
  if b = 0 then .error .zeroDivisionError else .ok (a / b)

/-- A Python list comprehension whose body may raise, evaluated left to
right in the `Except` monad. -/
def mapME (f : α → Except PyError β) : List α → Except PyError (List β)
  | [] => .ok []
  | a :: as => do
    let b ← f a
    let bs ← mapME f as
    pure (b :: bs)

/-- `BaseNoiseLayer._transform_noise_value` (src/map/noise_layer.py): spread
the raw value by 2, shift to the unit interval, then clamp to `[0, 1]`. -/
def transformNoiseValue (value : ℚ) : ℚ :=
  max 0 (min 1 ((value * 2 + 1) / 2))

/-- `BaseNoiseLayer._generate_noise` (src/map/noise_layer.py): outer loop over
`x`, inner over `y`, each cell holding the transformed `pnoise2` value at the
coordinates divided by `scale * scale_factor`. -/
def generateNoise (pnoise : ℚ → ℚ → ℚ) (seed : ℤ) (scale : ℚ)
    (params : NoiseParameters) (width height : ℤ) :
    Except PyError (List (List ℚ)) :=
  mapME (fun (x : ℕ) => mapME (fun (y : ℕ) => do
      let xc ← pydiv ((x : ℚ) + (seed : ℚ)) (scale * params.scale_factor)
      let yc ← pydiv ((y : ℚ) + (seed : ℚ)) (scale * params.scale_factor)
      pure (transformNoiseValue (pnoise xc yc)))
    (List.range height.toNat)) (List.range width.toNat)

/-- The state of a `BaseNoiseLayer` (src/map/noise_layer.py). -/
structure BaseNoiseLayer where
  width : ℤ
  height : ℤ
  scale : ℚ
  seed : ℤ
  params : NoiseParameters
  map : Option (List (List ℚ))
  deriving Repr, DecidableEq

/-- `BaseNoiseLayer.__init__` (src/map/noise_layer.py): store the fields and
eagerly generate the map.  No parameter validation is performed. -/
def mkBaseNoiseLayer (pnoise : ℚ → ℚ → ℚ) (params : NoiseParameters)
    (width height : ℤ) (scale : ℚ) (seed : ℤ) :
    Except PyError BaseNoiseLayer := do
  let m ← generateNoise pnoise seed scale params width height
  pure ⟨width, height, scale, seed, params, some m⟩

/-- Python 2-D list indexing `self._map[x][y]`, raising `IndexError` when an
index is out of range. -/
def index2 (m : List (List ℚ)) (x y : ℕ) : Except PyError ℚ :=
  match m[x]?.bind fun row => row[y]? with
  | some v => .ok v
  | none => .error .indexError

/-- `BaseNoiseLayer.get` (src/map/noise_layer.py): bounds check raising
`ValueError`, lazy regeneration when the map is missing, then a direct lookup
of the stored (already transformed) value.  The result is paired with the
layer state after the call. -/
def layerGet (pnoise : ℚ → ℚ → ℚ) (l : BaseNoiseLayer) (x y : ℤ) :
    Except PyError ℚ × BaseNoiseLayer :=
  if ¬(0 ≤ x ∧ x < l.width ∧ 0 ≤ y ∧ y < l.height) then
    (.error (.valueError "Coordinates out of bounds"), l)
  else
    match l.map with
    | some m => (index2 m x.toNat y.toNat, l)
    | none =>
      match generateNoise pnoise l.seed l.scale l.params l.width l.height with
      | .error e => (.error e, l)
      | .ok m => (index2 m x.toNat y.toNat, { l with map := some m })

/-- The state of a legacy noise layer (src/noise_layer.py): its stored map
holds raw `pnoise2` values. -/
structure LegacyNoiseLayer where
  width : ℤ
  height : ℤ
  scale : ℚ
  seed : ℤ
  map : Option (List (List ℚ))
  deriving Repr, DecidableEq

/-- The `_generate` loop shared by the legacy subclasses (src/noise_layer.py):
raw `pnoise2` values at coordinates divided by `denom`, which is `scale` for
the height and humidity layers and `scale * scale_factor` for the temperature
and mystical layers. -/
def legacyGenerate (pnoise : ℚ → ℚ → ℚ) (seed : ℤ) (denom : ℚ)
    (width height : ℤ) : Except PyError (List (List ℚ)) :=
  mapME (fun (x : ℕ) => mapME (fun (y : ℕ) => do
      let xc ← pydiv ((x : ℚ) + (seed : ℚ)) denom
      let yc ← pydiv ((y : ℚ) + (seed : ℚ)) denom
      pure (pnoise xc yc))
    (List.range height.toNat)) (List.range width.toNat)

/-- Legacy `BaseNoiseLayer.__init__` (src/noise_layer.py): store the fields
and eagerly generate the raw map.  No parameter validation is performed. -/
def mkLegacyNoiseLayer (pnoise : ℚ → ℚ → ℚ) (denom : ℚ)
    (width height : ℤ) (scale : ℚ) (seed : ℤ) :
    Except PyError LegacyNoiseLayer := do
  let m ← legacyGenerate pnoise seed denom width height
  pure ⟨width, height, scale, seed, some m⟩

/-- Legacy `BaseNoiseLayer.get` (src/noise_layer.py): bounds check, lazy
regeneration, then the naive normalization `(value + 1) / 2` of the stored raw
value — with no clamp. -/
def legacyLayerGet (pnoise : ℚ → ℚ → ℚ) (denom : ℚ) (l : LegacyNoiseLayer)
    (x y : ℤ) : Except PyError ℚ × LegacyNoiseLayer :=
  if ¬(0 ≤ x ∧ x < l.width ∧ 0 ≤ y ∧ y < l.height) then
    (.error (.valueError "Coordinates out of bounds"), l)
  else
    match l.map with
    | some m =>
      match index2 m x.toNat y.toNat with
      | .ok v => (.ok ((v + 1) / 2), l)
      | .error e => (.error e, l)
    | none =>
      match legacyGenerate pnoise l.seed denom l.width l.height with
      | .error e => (.error e, l)
      | .ok m =>
        match index2 m x.toNat y.toNat with
        | .ok v => (.ok ((v + 1) / 2), { l with map := some m })
        | .error e => (.error e, { l with map := some m })

/-- Membership test of a key in the counts dict of `ResourceFilter`. -/
def hasKey : List (String × ℕ) → String → Bool
  | [], _ => false
  | p :: rest, r => if p.1 = r then true else hasKey rest r

/-- Dict lookup in the counts dict of `ResourceFilter`. -/
def lookupCount : List (String × ℕ) → String → ℕ
  | [], _ => 0
  | p :: rest, r => if p.1 = r then p.2 else lookupCount rest r

/-- The statement `self.resource_counts[key] += 1`, raising `KeyError` when
the key is absent. -/
def bumpCount (counts : List (String × ℕ)) (key : String) :
    Except PyError (List (String × ℕ)) :=
  if hasKey counts key then
    .ok (counts.map fun p => if p.1 = key then (p.1, p.2 + 1) else p)
  else .error (.keyError key)

/-- One cell of `ResourceFilter.update_resource_stats`: a matched cell bumps
its resource type's count and the running total. -/
def statsCell (acc : List (String × ℕ) × ℕ) (cell : Option Biome) :
    Except PyError (List (String × ℕ) × ℕ) :=
  match cell with
  | none => .ok acc
  | some b => do
    let c ← bumpCount acc.1 b.resources.type
    pure (c, acc.2 + 1)

/-- The inner row loop of `ResourceFilter.update_resource_stats`. -/
def statsRow : List (Option Biome) → List (String × ℕ) × ℕ →
    Except PyError (List (String × ℕ) × ℕ)
  | [], acc => .ok acc
  | cell :: rest, acc => do
    let acc2 ← statsCell acc cell
    statsRow rest acc2

/-- The outer grid loop of `ResourceFilter.update_resource_stats`. -/
def statsGrid : List (List (Option Biome)) → List (String × ℕ) × ℕ →
    Except PyError (List (String × ℕ) × ℕ)
  | [], acc => .ok acc
  | row :: rest, acc => do
    let acc2 ← statsRow row acc
    statsGrid rest acc2

/-- `ResourceFilter.update_resource_stats`: reset every known resource type's
count to zero and the total to zero, then scan the grid. -/
def updateResourceStats (resource_types : List String)
    (grid : List (List (Option Biome))) :
    Except PyError (List (String × ℕ) × ℕ) :=
  statsGrid grid (resource_types.map fun r => (r, 0), 0)

/-- The percentage computed in `ResourceFilter.draw`:
`count / total_biomes * 100` when the total is positive, else `0`. -/
def resourcePercentage (count total : ℕ) : ℚ :=
  if 0 < total then (count : ℚ) / (total : ℚ) * 100 else 0

/-- The number of matched (non-null) cells of one row. -/
def countSome : List (Option Biome) → ℕ
  | [] => 0
  | none :: rest => countSome rest
  | some _ :: rest => countSome rest + 1

/-- The number of matched cells of one row carrying resource type `r`. -/
def countType (r : String) : List (Option Biome) → ℕ
  | [] => 0
  | none :: rest => countType r rest
  | some b :: rest => countType r rest + (if b.resources.type = r then 1 else 0)

/-- The number of matched (non-null) cells of a grid. -/
def matchedCellCount : List (List (Option Biome)) → ℕ
  | [] => 0
  | row :: rest => countSome row + matchedCellCount rest

/-- The number of matched cells of a grid carrying resource type `r`. -/
def resourceCellCount (r : String) : List (List (Option Biome)) → ℕ
  | [] => 0
  | row :: rest => countType r row + resourceCellCount r rest

/-- Sample biome covering the whole unit cube on every axis. -/
def biomeA : Biome :=
  ⟨"A", ⟨(0, 1), (0, 1), (0, 1), (0, 1)⟩, ⟨"wood", "oak"⟩, (10, 200, 10)⟩

/-- Second sample biome with ranges identical to `biomeA`. -/
def biomeB : Biome :=
  ⟨"B", ⟨(0, 1), (0, 1), (0, 1), (0, 1)⟩, ⟨"stone", "granite"⟩, (120, 120, 120)⟩

/-- Sample biome whose ranges only cover the low quarter of every axis. -/
def biomeLow : Biome :=
  ⟨"Low", ⟨(0, 1/4), (0, 1/4), (0, 1/4), (0, 1/4)⟩, ⟨"wood", "oak"⟩, (0, 0, 0)⟩

/-- Sample environmental values at the middle of every axis. -/
def sampleMid : EnvSample := ⟨1/2, 1/2, 1/2, 1/2⟩

/-- A constant stand-in for the external `noise.pnoise2`. -/
def constPnoise : ℚ → ℚ → ℚ := fun _ _ => 2/5

/-- Concrete 1×1 canonical noise layer produced by `mkBaseNoiseLayer` with
`constPnoise`; the single cell holds `transformNoiseValue (2/5) = 9/10`. -/
def sampleLayer : BaseNoiseLayer := ⟨1, 1, 50, 0, heightParams, some [[9/10]]⟩

/-- Concrete 1×1 legacy noise layer produced by `mkLegacyNoiseLayer` with
`constPnoise`; the single cell holds the raw value `2/5`. -/
def sampleLegacyLayer : LegacyNoiseLayer := ⟨1, 1, 50, 0, some [[2/5]]⟩

/-- A concrete 1×2 all-unmatched grid. -/
def nullGrid : List (List (Option Biome)) := [[none, none]]

/-- The property `Biome._validate_properties` enforces on one axis range:
ordered bounds, both inside `[0, 1]`. -/
def validRange (r : ℚ × ℚ) : Prop :=
  r.1 ≤ r.2 ∧ 0 ≤ r.1 ∧ r.1 ≤ 1 ∧ 0 ≤ r.2 ∧ r.2 ≤ 1

theorem exbind_ok (a : α) (f : α → Except PyError β) :
    (Except.ok a >>= f) = f a := rfl

theorem exbind_error (e : PyError) (f : α → Except PyError β) :
    ((Except.error e : Except PyError α) >>= f) = .error e := rfl

/-- Full characterization of the best-match loop: either no element's score
strictly beats the incoming best score and the accumulator is returned
unchanged, or the result is the first element attaining the final score,
every earlier element scoring strictly less and every element of the list
scoring no more. -/
theorem findLoop_spec (s : EnvSample) (l : List Biome) :
    ∀ acc : Option Biome × ℚ,
      (findLoop s l acc = acc ∧ ∀ b ∈ l, axisScore b s ≤ acc.2) ∨
      (∃ l1 b l2, l = l1 ++ b :: l2 ∧
        findLoop s l acc = (some b, axisScore b s) ∧
        acc.2 < axisScore b s ∧
        (∀ b' ∈ l1, axisScore b' s < axisScore b s) ∧
        (∀ b' ∈ l2, axisScore b' s ≤ axisScore b s)) := by
  induction l with
  | nil =>
    intro acc
    left
    exact ⟨rfl, by simp⟩
  | cons hd tl ih =>
    intro acc
    by_cases hcase : acc.2 < axisScore hd s
    · have hred : findLoop s (hd :: tl) acc =
          findLoop s tl (some hd, axisScore hd s) := by
        simp [findLoop, hcase]
      rcases ih (some hd, axisScore hd s) with
        ⟨heq, hall⟩ | ⟨l1, b, l2, hsplit, heq, hlt, hearlier, hlater⟩
      · right
        refine ⟨[], hd, tl, rfl, ?_, hcase, by simp, ?_⟩
        · rw [hred, heq]
        · intro b hb
          simpa using hall b hb
      · right
        refine ⟨hd :: l1, b, l2, by rw [hsplit]; rfl, ?_, ?_, ?_, hlater⟩
        · rw [hred, heq]
        · exact lt_trans hcase hlt
        · intro b' hb'
          rcases List.mem_cons.mp hb' with h | h
          · rw [h]; exact hlt
          · exact hearlier b' h
    · have hred : findLoop s (hd :: tl) acc = findLoop s tl acc := by
        simp [findLoop, hcase]
      rcases ih acc with
        ⟨heq, hall⟩ | ⟨l1, b, l2, hsplit, heq, hlt, hearlier, hlater⟩
      · left
        refine ⟨by rw [hred, heq], ?_⟩
        intro b hb
        rcases List.mem_cons.mp hb with h | h
        · rw [h]; exact le_of_not_lt hcase
        · exact hall b h
      · right
        refine ⟨hd :: l1, b, l2, by rw [hsplit]; rfl, by rw [hred, heq], hlt, ?_, hlater⟩
        intro b' hb'
        rcases List.mem_cons.mp hb' with h | h
        · rw [h]; exact lt_of_le_of_lt (le_of_not_lt hcase) hlt
        · exact hearlier b' h

/-- Claim C2: a non-null assignment of `BiomeMap._find_matching_biome` always
has axis-match score at least `1/2`, and when every catalog biome scores below
`1/2` on the sampled values the cell is left unmatched. -/
theorem claim_c2 (biomes : List Biome) (s : EnvSample) :
    (∀ b : Biome, findMatchingBiome biomes s = some b → 1/2 ≤ axisScore b s) ∧
    ((∀ b ∈ biomes, axisScore b s < 1/2) → findMatchingBiome biomes s = none) := by
  constructor
  · intro b hb
    rcases findLoop_spec s biomes (none, 0) with
      ⟨heq, _⟩ | ⟨l1, b', l2, _, heq, _, _, _⟩
    · simp only [findMatchingBiome, heq] at hb
      norm_num at hb
      exact Option.noConfusion hb
    · simp only [findMatchingBiome, heq] at hb
      by_cases hge : (1 : ℚ)/2 ≤ axisScore b' s
      · rw [if_pos hge] at hb
        cases hb
        exact hge
      · rw [if_neg hge] at hb
        cases hb
  · intro hlt
    rcases findLoop_spec s biomes (none, 0) with
      ⟨heq, _⟩ | ⟨l1, b', l2, hsplit, heq, _, _, _⟩
    · simp only [findMatchingBiome, heq]
      norm_num
    · simp only [findMatchingBiome, heq]
      have hb' : axisScore b' s < 1/2 := hlt b' (by rw [hsplit]; simp)
      rw [if_neg (not_le.mpr hb')]

/-- Witness for C2: against the low-quarter biome, the mid-range sample scores
`0 < 1/2` on every catalog member, so the classifier leaves the cell null. -/
theorem claim_c2_witness : findMatchingBiome [biomeLow] sampleMid = none := by
  refine (claim_c2 [biomeLow] sampleMid).2 ?_
  intro b hb
  rcases List.mem_singleton.mp hb with rfl
  norm_num [axisScore, axisIndicator, biomeLow, sampleMid]

/-- Claim C3: whenever `BiomeMap._find_matching_biome` selects a biome, that
biome is the first element of the catalog attaining the maximal score: every
earlier catalog biome scores strictly less, so among equal-scoring biomes the
earlier-indexed one is selected, deterministically. -/
theorem claim_c3 (biomes : List Biome) (s : EnvSample) (b : Biome)
    (h : findMatchingBiome biomes s = some b) :
    ∃ l1 l2, biomes = l1 ++ b :: l2 ∧
      (∀ b' ∈ l1, axisScore b' s < axisScore b s) ∧
      (∀ b' ∈ biomes, axisScore b' s ≤ axisScore b s) := by
  rcases findLoop_spec s biomes (none, 0) with
    ⟨heq, _⟩ | ⟨l1, b', l2, hsplit, heq, _, hearlier, hlater⟩
  · simp only [findMatchingBiome, heq] at h
    norm_num at h
    exact Option.noConfusion h
  · simp only [findMatchingBiome, heq] at h
    by_cases hge : (1 : ℚ)/2 ≤ axisScore b' s
    · rw [if_pos hge] at h
      cases h
      refine ⟨l1, l2, hsplit, hearlier, ?_⟩
      intro b'' hb''
      rw [hsplit] at hb''
      rcases List.mem_append.mp hb'' with h1 | h2
      · exact le_of_lt (hearlier b'' h1)
      · rcases List.mem_cons.mp h2 with h3 | h4
        · rw [h3]
        · exact hlater b'' h4
    · rw [if_neg hge] at h
      cases h

/-- Witness for C3: `biomeA` and `biomeB` have identical ranges, hence equal
scores on any input; the classifier selects the earlier-indexed `biomeA`. -/
theorem claim_c3_witness :
    ∃ l1 l2, [biomeA, biomeB] = l1 ++ biomeA :: l2 ∧
      (∀ b' ∈ l1, axisScore b' sampleMid < axisScore biomeA sampleMid) ∧
      (∀ b' ∈ [biomeA, biomeB],
        axisScore b' sampleMid ≤ axisScore biomeA sampleMid) := by
  refine claim_c3 [biomeA, biomeB] sampleMid biomeA ?_
  have hA : axisScore biomeA sampleMid = 1 := by
    norm_num [axisScore, axisIndicator, biomeA, sampleMid]
  have hB : axisScore biomeB sampleMid = 1 := by
    norm_num [axisScore, axisIndicator, biomeB, sampleMid]
  norm_num [findMatchingBiome, findLoop, hA, hB]

theorem checkRange_ok {r : ℚ × ℚ} (p : String) (h : validRange r) :
    checkRange p r = .ok () := by
  obtain ⟨h1, h2⟩ := h
  rw [checkRange, if_neg (not_lt.mpr h1), if_neg (not_not_intro h2)]

theorem checkRange_err {r : ℚ × ℚ} (p : String) (h : ¬validRange r) :
    ∃ e, checkRange p r = .error e := by
  rw [checkRange]
  by_cases h1 : r.1 > r.2
  · rw [if_pos h1]
    exact ⟨_, rfl⟩
  · have h2 : ¬(0 ≤ r.1 ∧ r.1 ≤ 1 ∧ 0 ≤ r.2 ∧ r.2 ≤ 1) := by
      intro hc
      exact h ⟨not_lt.mp h1, hc⟩
    rw [if_neg h1, if_pos h2]
    exact ⟨_, rfl⟩

/-- Claim C9: `Biome.__init__` succeeds exactly when the four axis ranges are
valid (ordered, bounds inside `[0,1]`); nothing else — resource strings and
color included — is validated. -/
theorem claim_c9 (name : String)
    (height_min height_max humidity_min humidity_max
     temperature_min temperature_max mystical_min mystical_max : ℚ)
    (resource_type resource_variant : String) (color : ℤ × ℤ × ℤ) :
    (∃ b, mkBiome name height_min height_max humidity_min humidity_max
        temperature_min temperature_max mystical_min mystical_max
        resource_type resource_variant color = .ok b) ↔
      (validRange (height_min, height_max) ∧
       validRange (humidity_min, humidity_max) ∧
       validRange (temperature_min, temperature_max) ∧
       validRange (mystical_min, mystical_max)) := by
  constructor
  · rintro ⟨b, hb⟩
    by_cases h1 : validRange (height_min, height_max)
    · by_cases h2 : validRange (humidity_min, humidity_max)
      · by_cases h3 : validRange (temperature_min, temperature_max)
        · by_cases h4 : validRange (mystical_min, mystical_max)
          · exact ⟨h1, h2, h3, h4⟩
          · obtain ⟨e, he⟩ := checkRange_err "mystical" h4
            simp [mkBiome, checkRange_ok _ h1, checkRange_ok _ h2,
              checkRange_ok _ h3, he, exbind_ok, exbind_error] at hb
        · obtain ⟨e, he⟩ := checkRange_err "temperature" h3
          simp [mkBiome, checkRange_ok _ h1, checkRange_ok _ h2, he,
            exbind_ok, exbind_error] at hb
      · obtain ⟨e, he⟩ := checkRange_err "humidity" h2
        simp [mkBiome, checkRange_ok _ h1, he, exbind_ok, exbind_error] at hb
    · obtain ⟨e, he⟩ := checkRange_err "height" h1
      simp [mkBiome, he, exbind_ok, exbind_error] at hb
  · rintro ⟨h1, h2, h3, h4⟩
    refine ⟨⟨name,
      ⟨(height_min, height_max), (humidity_min, humidity_max),
       (temperature_min, temperature_max), (mystical_min, mystical_max)⟩,
      ⟨resource_type, resource_variant⟩, color⟩, ?_⟩
    simp [mkBiome, checkRange_ok _ h1, checkRange_ok _ h2,
      checkRange_ok _ h3, checkRange_ok _ h4, exbind_ok]

/-- Witness for C9: a biome with empty resource strings and color components
far outside `[0, 255]` constructs successfully, since only the axis ranges
are validated. -/
theorem claim_c9_witness :
    ∃ b, mkBiome "Odd" 0 1 0 1 0 1 0 1 "" "" (999, -5, 300) = .ok b :=
  (claim_c9 "Odd" 0 1 0 1 0 1 0 1 "" "" (999, -5, 300)).mpr
    (by norm_num [validRange])

/-- Counterexample to C1 as stated: classifying a 2×2 grid against an empty
biome catalog does not fail — `BiomeMap._generate_biome_grid` silently
produces the all-null grid. -/
theorem claim_c1_counterexample :
    generateBiomeGrid [] (fun _ _ => sampleMid) 2 2 =
      [[none, none], [none, none]] := by
  norm_num [generateBiomeGrid, findMatchingBiome, findLoop, List.range_succ]

/-- Claim C1 as amended: the score-threshold classifier (`BiomeMap`) performs
no empty-catalog check — against an empty catalog it silently produces an
all-null grid of the requested dimensions — while only the legacy
`MapManager.__init__` rejects an empty catalog with a `ValueError`. -/
theorem claim_c1 :
    (∀ (sample : ℕ → ℕ → EnvSample) (gridWidth gridHeight : ℕ),
      ∀ row ∈ generateBiomeGrid [] sample gridWidth gridHeight,
        ∀ cell ∈ row, cell = none) ∧
    (∀ width height tile_size : ℤ,
      0 < width → 0 < height → 0 < tile_size →
      mapManagerCheck width height tile_size [] =
        .error (.valueError "At least one biome must be provided")) := by
  constructor
  · intro sample w h row hrow cell hcell
    simp only [generateBiomeGrid, List.mem_map] at hrow
    obtain ⟨y, hy, rfl⟩ := hrow
    simp only [List.mem_map] at hcell
    obtain ⟨x, hx, rfl⟩ := hcell
    norm_num [findMatchingBiome, findLoop]
  · intro w h t hw hh ht
    have hcond : ¬(w ≤ 0 ∨ h ≤ 0 ∨ t ≤ 0) := by
      push_neg
      exact ⟨hw, hh, ht⟩
    simp [mapManagerCheck, hcond]

/-- Witness for the amended C1: with positive dimensions and an empty catalog,
`MapManager.__init__` raises the empty-catalog `ValueError`. -/
theorem claim_c1_witness :
    mapManagerCheck 10 10 16 [] =
      .error (.valueError "At least one biome must be provided") :=
  claim_c1.2 10 10 16 (by norm_num) (by norm_num) (by norm_num)

/-- Characterization of the first-match loop of
`MapManager._find_matching_biome`: either nothing matches, or the result is
the first matching biome. -/
theorem mmFindLoop_spec (s : EnvSample) (l : List Biome) :
    (mmFindLoop s l = none ∧ ∀ b ∈ l, b.matches s = false) ∨
    (∃ l1 b l2, l = l1 ++ b :: l2 ∧ mmFindLoop s l = some b ∧
      b.matches s = true ∧ ∀ b' ∈ l1, b'.matches s = false) := by
  induction l with
  | nil =>
    left
    exact ⟨rfl, by simp⟩
  | cons hd tl ih =>
    by_cases hm : hd.matches s = true
    · right
      exact ⟨[], hd, tl, rfl, by simp [mmFindLoop, hm], hm, by simp⟩
    · have hm' : hd.matches s = false := by simpa using hm
      have hred : mmFindLoop s (hd :: tl) = mmFindLoop s tl := by
        simp [mmFindLoop, hm']
      rcases ih with ⟨heq, hall⟩ | ⟨l1, b, l2, hsplit, heq, hmb, hearlier⟩
      · left
        refine ⟨by rw [hred, heq], ?_⟩
        intro b hb
        rcases List.mem_cons.mp hb with h | h
        · rw [h]; exact hm'
        · exact hall b h
      · right
        refine ⟨hd :: l1, b, l2, by rw [hsplit]; rfl, by rw [hred, heq], hmb, ?_⟩
        intro b' hb'
        rcases List.mem_cons.mp hb' with h | h
        · rw [h]; exact hm'
        · exact hearlier b' h

/-- Claim C10: over a non-empty catalog the legacy `MapManager` classifier
always returns a catalog member — the first biome whose four ranges all
contain the sampled values when one exists, otherwise the random-draw
fallback member — and every tile of the generated map carries a biome. -/
theorem claim_c10 (biomes : List Biome) (hne : biomes ≠ []) :
    (∀ (s : EnvSample) (r : ℕ), ∃ b,
      mmFindMatchingBiome biomes s r = some b ∧ b ∈ biomes ∧
      ((∃ l1 l2, biomes = l1 ++ b :: l2 ∧ b.matches s = true ∧
         ∀ b' ∈ l1, b'.matches s = false) ∨
       (∀ b' ∈ biomes, b'.matches s = false))) ∧
    (∀ (sample : ℕ → ℕ → EnvSample) (draw : ℕ → ℕ → ℕ) (width height : ℕ),
      ∀ row ∈ mmGenerateMap biomes sample draw width height,
        ∀ t ∈ row, ∃ b, t.2.2 = some b ∧ b ∈ biomes) := by
  have hmain : ∀ (s : EnvSample) (r : ℕ), ∃ b,
      mmFindMatchingBiome biomes s r = some b ∧ b ∈ biomes ∧
      ((∃ l1 l2, biomes = l1 ++ b :: l2 ∧ b.matches s = true ∧
         ∀ b' ∈ l1, b'.matches s = false) ∨
       (∀ b' ∈ biomes, b'.matches s = false)) := by
    intro s r
    rcases mmFindLoop_spec s biomes with
      ⟨heq, hall⟩ | ⟨l1, b, l2, hsplit, heq, hmb, hearlier⟩
    · have hlen : 0 < biomes.length := List.length_pos.mpr hne
      have hlt : r % biomes.length < biomes.length := Nat.mod_lt _ hlen
      refine ⟨biomes[r % biomes.length], ?_, List.getElem_mem hlt, Or.inr hall⟩
      simp [mmFindMatchingBiome, heq, List.getElem?_eq_getElem hlt]
    · refine ⟨b, ?_, ?_, Or.inl ⟨l1, l2, hsplit, hmb, hearlier⟩⟩
      · simp [mmFindMatchingBiome, heq]
      · rw [hsplit]
        simp
  refine ⟨hmain, ?_⟩
  intro sample draw w h row hrow t ht
  simp only [mmGenerateMap, List.mem_map] at hrow
  obtain ⟨y, hy, rfl⟩ := hrow
  simp only [List.mem_map] at ht
  obtain ⟨x, hx, rfl⟩ := ht
  obtain ⟨b, hb, hbmem, _⟩ := hmain (sample x y) (draw x y)
  exact ⟨b, hb, hbmem⟩

/-- Witness for C10: over the one-element catalog `[biomeLow]`, the classifier
returns a catalog member even though the mid-range sample matches no biome
(the fallback draw picks one). -/
theorem claim_c10_witness :
    ∃ b, mmFindMatchingBiome [biomeLow] sampleMid 7 = some b ∧ b ∈ [biomeLow] ∧
      ((∃ l1 l2, [biomeLow] = l1 ++ b :: l2 ∧ b.matches sampleMid = true ∧
         ∀ b' ∈ l1, b'.matches sampleMid = false) ∨
       (∀ b' ∈ [biomeLow], b'.matches sampleMid = false)) :=
  (claim_c10 [biomeLow] (by simp)).1 sampleMid 7

theorem expure (a : α) : (pure a : Except PyError α) = .ok a := rfl

theorem mapME_cons_error {f : α → Except PyError β} {a : α} {as : List α}
    {e : PyError} (h : f a = .error e) : mapME f (a :: as) = .error e := by
  simp only [mapME]
  rw [h, exbind_error]

theorem mapME_cons_inv {f : α → Except PyError β} {a : α} {as : List α}
    {bs : List β} (h : mapME f (a :: as) = .ok bs) :
    ∃ b bs', f a = .ok b ∧ mapME f as = .ok bs' ∧ bs = b :: bs' := by
  simp only [mapME] at h
  cases hfa : f a with
  | error e =>
    rw [hfa, exbind_error] at h
    exact Except.noConfusion h
  | ok b =>
    rw [hfa, exbind_ok] at h
    cases hrest : mapME f as with
    | error e =>
      rw [hrest, exbind_error] at h
      exact Except.noConfusion h
    | ok bs' =>
      rw [hrest, exbind_ok, expure] at h
      injection h with h2
      exact ⟨b, bs', rfl, rfl, h2.symm⟩

theorem mapME_length {f : α → Except PyError β} :
    ∀ {l : List α} {bs : List β}, mapME f l = .ok bs → bs.length = l.length := by
  intro l
  induction l with
  | nil =>
    intro bs h
    injection h with h2
    rw [← h2]
    rfl
  | cons a as ih =>
    intro bs h
    obtain ⟨b0, bs', _, hrest, rfl⟩ := mapME_cons_inv h
    simp [ih hrest]

theorem mapME_mem {f : α → Except PyError β} :
    ∀ {l : List α} {bs : List β}, mapME f l = .ok bs →
      ∀ b ∈ bs, ∃ a ∈ l, f a = .ok b := by
  intro l
  induction l with
  | nil =>
    intro bs h b hb
    injection h with h2
    rw [← h2] at hb
    exact absurd hb (by simp)
  | cons a as ih =>
    intro bs h b hb
    obtain ⟨b0, bs', hfa, hrest, rfl⟩ := mapME_cons_inv h
    rcases List.mem_cons.mp hb with h1 | h1
    · exact ⟨a, List.mem_cons_self a as, h1 ▸ hfa⟩
    · obtain ⟨a', ha', hfa'⟩ := ih hrest b h1
      exact ⟨a', List.mem_cons_of_mem _ ha', hfa'⟩

theorem mapME_getElem {f : α → Except PyError β} :
    ∀ {l : List α} {bs : List β}, mapME f l = .ok bs →
      ∀ {i : ℕ} {a : α}, l[i]? = some a → ∃ b, bs[i]? = some b ∧ f a = .ok b := by
  intro l
  induction l with
  | nil =>
    intro bs h i a ha
    simp at ha
  | cons a0 as ih =>
    intro bs h i a ha
    obtain ⟨b0, bs', hfa, hrest, rfl⟩ := mapME_cons_inv h
    cases i with
    | zero =>
      simp only [List.getElem?_cons_zero, Option.some.injEq] at ha
      exact ⟨b0, by simp, ha ▸ hfa⟩
    | succ n =>
      simp only [List.getElem?_cons_succ] at ha
      obtain ⟨b, hb, hfb⟩ := ih hrest ha
      exact ⟨b, by simpa using hb, hfb⟩

theorem mapME_ok_of_all {f : α → Except PyError β} :
    ∀ {l : List α}, (∀ a ∈ l, ∃ b, f a = .ok b) → ∃ bs, mapME f l = .ok bs := by
  intro l
  induction l with
  | nil =>
    intro _
    exact ⟨[], rfl⟩
  | cons a as ih =>
    intro h
    obtain ⟨b, hb⟩ := h a (List.mem_cons_self a as)
    obtain ⟨bs, hbs⟩ := ih fun a' ha' => h a' (List.mem_cons_of_mem _ ha')
    refine ⟨b :: bs, ?_⟩
    simp only [mapME]
    rw [hb, exbind_ok, hbs, exbind_ok]
    exact expure _

theorem mkBaseNoiseLayer_ok {pnoise : ℚ → ℚ → ℚ} {params : NoiseParameters}
    {width height : ℤ} {scale : ℚ} {seed : ℤ} {l : BaseNoiseLayer}
    (h : mkBaseNoiseLayer pnoise params width height scale seed = .ok l) :
    ∃ m, generateNoise pnoise seed scale params width height = .ok m ∧
      l.width = width ∧ l.height = height ∧ l.map = some m := by
  simp only [mkBaseNoiseLayer] at h
  cases hg : generateNoise pnoise seed scale params width height with
  | error e =>
    rw [hg, exbind_error] at h
    exact Except.noConfusion h
  | ok m =>
    rw [hg, exbind_ok, expure] at h
    injection h with h2
    exact ⟨m, rfl, by rw [← h2], by rw [← h2], by rw [← h2]⟩

theorem mkLegacyNoiseLayer_ok {pnoise : ℚ → ℚ → ℚ} {denom : ℚ}
    {width height : ℤ} {scale : ℚ} {seed : ℤ} {l : LegacyNoiseLayer}
    (h : mkLegacyNoiseLayer pnoise denom width height scale seed = .ok l) :
    ∃ m, legacyGenerate pnoise seed denom width height = .ok m ∧
      l.width = width ∧ l.height = height ∧ l.map = some m := by
  simp only [mkLegacyNoiseLayer] at h
  cases hg : legacyGenerate pnoise seed denom width height with
  | error e =>
    rw [hg, exbind_error] at h
    exact Except.noConfusion h
  | ok m =>
    rw [hg, exbind_ok, expure] at h
    injection h with h2
    exact ⟨m, rfl, by rw [← h2], by rw [← h2], by rw [← h2]⟩

theorem noiseCell_inv {pnoise : ℚ → ℚ → ℚ} {seed : ℤ} {denom : ℚ}
    {x y : ℕ} {v : ℚ}
    (h : (do
      let xc ← pydiv ((x : ℚ) + (seed : ℚ)) denom
      let yc ← pydiv ((y : ℚ) + (seed : ℚ)) denom
      pure (transformNoiseValue (pnoise xc yc)) : Except PyError ℚ) = .ok v) :
    ∃ rv, v = transformNoiseValue rv := by
  by_cases hden : denom = 0
  · rw [show pydiv ((x : ℚ) + (seed : ℚ)) denom = .error .zeroDivisionError from
      by simp [pydiv, hden]] at h
    rw [exbind_error] at h
    exact Except.noConfusion h
  · simp only [pydiv, if_neg hden, exbind_ok, expure] at h
    injection h with h2
    exact ⟨_, h2.symm⟩

theorem generateNoise_getElem {pnoise : ℚ → ℚ → ℚ} {seed : ℤ} {scale : ℚ}
    {params : NoiseParameters} {width height : ℤ} {m : List (List ℚ)}
    (hm : generateNoise pnoise seed scale params width height = .ok m)
    {x y : ℕ} (hx : x < width.toNat) (hy : y < height.toNat) :
    ∃ rv, (m[x]?.bind fun row => row[y]?) = some (transformNoiseValue rv) := by
  simp only [generateNoise] at hm
  obtain ⟨row, hrow, hfx⟩ := mapME_getElem hm (List.getElem?_range hx)
  obtain ⟨v, hv, hgy⟩ := mapME_getElem hfx (List.getElem?_range hy)
  obtain ⟨rv, hrv⟩ := noiseCell_inv hgy
  refine ⟨rv, ?_⟩
  rw [hrow]
  simpa [hrv] using hv

theorem legacyGenerate_getElem {pnoise : ℚ → ℚ → ℚ} {seed : ℤ} {denom : ℚ}
    {width height : ℤ} {m : List (List ℚ)}
    (hm : legacyGenerate pnoise seed denom width height = .ok m)
    {x y : ℕ} (hx : x < width.toNat) (hy : y < height.toNat) :
    ∃ v, (m[x]?.bind fun row => row[y]?) = some v := by
  simp only [legacyGenerate] at hm
  obtain ⟨row, hrow, hfx⟩ := mapME_getElem hm (List.getElem?_range hx)
  obtain ⟨v, hv, _⟩ := mapME_getElem hfx (List.getElem?_range hy)
  refine ⟨v, ?_⟩
  rw [hrow]
  simpa using hv

theorem layerGet_inBounds {pnoise : ℚ → ℚ → ℚ} {l : BaseNoiseLayer}
    {m : List (List ℚ)} (hmap : l.map = some m) {x y : ℤ}
    (hin : 0 ≤ x ∧ x < l.width ∧ 0 ≤ y ∧ y < l.height) :
    layerGet pnoise l x y = (index2 m x.toNat y.toNat, l) := by
  simp only [layerGet, hmap, if_neg (not_not_intro hin)]

theorem legacyLayerGet_inBounds {pnoise : ℚ → ℚ → ℚ} {denom : ℚ}
    {l : LegacyNoiseLayer} {m : List (List ℚ)} (hmap : l.map = some m)
    {x y : ℤ} (hin : 0 ≤ x ∧ x < l.width ∧ 0 ≤ y ∧ y < l.height)
    {v : ℚ} (hidx : index2 m x.toNat y.toNat = .ok v) :
    legacyLayerGet pnoise denom l x y = (.ok ((v + 1) / 2), l) := by
  simp only [legacyLayerGet, hmap, if_neg (not_not_intro hin), hidx]

/-- Evaluation of the canonical constructor on a concrete 1×1 layer: the
single cell holds the spread-transformed value `9/10` of the raw sample `2/5`. -/
theorem sampleLayer_mk :
    mkBaseNoiseLayer constPnoise heightParams 1 1 50 0 = .ok sampleLayer := by
  norm_num [mkBaseNoiseLayer, generateNoise, mapME, pydiv, constPnoise,
    heightParams, transformNoiseValue, sampleLayer, exbind_ok, exbind_error,
    expure, min_def, max_def]

/-- Evaluation of the legacy constructor on a concrete 1×1 layer: the single
cell holds the raw sample `2/5`. -/
theorem sampleLegacyLayer_mk :
    mkLegacyNoiseLayer constPnoise 50 1 1 50 0 = .ok sampleLegacyLayer := by
  norm_num [mkLegacyNoiseLayer, legacyGenerate, mapME, pydiv, constPnoise,
    sampleLegacyLayer, exbind_ok, exbind_error, expure]

/-- Counterexample to C4 as stated: the legacy noise layer (src/noise_layer.py)
normalizes its stored raw value `2/5` to `(2/5 + 1)/2 = 7/10`, not to the
contrast-spreading `clamp((2·(2/5)+1)/2, 0, 1) = 9/10`, so the repository's
layers do not all use the single spread transform. -/
theorem claim_c4_counterexample :
    (legacyLayerGet constPnoise 50 sampleLegacyLayer 0 0).1 = .ok (7/10) ∧
    transformNoiseValue (2/5) = 9/10 ∧
    ((7 : ℚ)/10) ≠ 9/10 := by
  refine ⟨?_, ?_, by norm_num⟩
  · norm_num [legacyLayerGet, sampleLegacyLayer, index2]
  · norm_num [transformNoiseValue, min_def, max_def]

/-- Claim C4 as amended: the canonical layers (src/map/noise_layer.py) all
normalize with the single contrast-spreading transform
`clamp((2v+1)/2, 0, 1)` — every stored cell is a spread-transformed raw
value — while the legacy layers (src/noise_layer.py) instead apply the naive
`(v+1)/2` to their stored raw values, so the two transforms coexist across
the repository's two noise-layer revisions. -/
theorem claim_c4 :
    (∀ v : ℚ, transformNoiseValue v = max 0 (min 1 ((2 * v + 1) / 2))) ∧
    (∀ (pnoise : ℚ → ℚ → ℚ) (params : NoiseParameters) (width height : ℤ)
       (scale : ℚ) (seed : ℤ) (l : BaseNoiseLayer),
      mkBaseNoiseLayer pnoise params width height scale seed = .ok l →
      ∀ x y : ℤ, 0 ≤ x → x < l.width → 0 ≤ y → y < l.height →
        ∃ rv, (layerGet pnoise l x y).1 = .ok (transformNoiseValue rv)) ∧
    (∀ (pnoise : ℚ → ℚ → ℚ) (denom : ℚ) (width height : ℤ)
       (scale : ℚ) (seed : ℤ) (l : LegacyNoiseLayer),
      mkLegacyNoiseLayer pnoise denom width height scale seed = .ok l →
      ∀ x y : ℤ, 0 ≤ x → x < l.width → 0 ≤ y → y < l.height →
        ∃ rv, (legacyLayerGet pnoise denom l x y).1 = .ok ((rv + 1) / 2)) := by
  refine ⟨?_, ?_, ?_⟩
  · intro v
    rw [show transformNoiseValue v = max 0 (min 1 ((v * 2 + 1) / 2)) from rfl,
      mul_comm v 2]
  · intro pnoise params width height scale seed l hmk x y hx0 hxw hy0 hyh
    obtain ⟨m, hg, hw, hh, hmap⟩ := mkBaseNoiseLayer_ok hmk
    have hx' : x.toNat < width.toNat := by rw [hw] at hxw; omega
    have hy' : y.toNat < height.toNat := by rw [hh] at hyh; omega
    obtain ⟨rv, hcell⟩ := generateNoise_getElem hg hx' hy'
    refine ⟨rv, ?_⟩
    rw [layerGet_inBounds hmap ⟨hx0, hxw, hy0, hyh⟩]
    simp [index2, hcell]
  · intro pnoise denom width height scale seed l hmk x y hx0 hxw hy0 hyh
    obtain ⟨m, hg, hw, hh, hmap⟩ := mkLegacyNoiseLayer_ok hmk
    have hx' : x.toNat < width.toNat := by rw [hw] at hxw; omega
    have hy' : y.toNat < height.toNat := by rw [hh] at hyh; omega
    obtain ⟨v, hcell⟩ := legacyGenerate_getElem hg hx' hy'
    have hidx : index2 m x.toNat y.toNat = .ok v := by simp [index2, hcell]
    refine ⟨v, ?_⟩
    rw [legacyLayerGet_inBounds hmap ⟨hx0, hxw, hy0, hyh⟩ hidx]

/-- Witness for the amended C4: on the concrete legacy 1×1 layer an in-bounds
lookup returns a naively normalized raw value. -/
theorem claim_c4_witness :
    ∃ rv, (legacyLayerGet constPnoise 50 sampleLegacyLayer 0 0).1 =
      .ok ((rv + 1) / 2) :=
  claim_c4.2.2 constPnoise 50 1 1 50 0 sampleLegacyLayer sampleLegacyLayer_mk
    0 0 (by norm_num) (by norm_num [sampleLegacyLayer])
    (by norm_num) (by norm_num [sampleLegacyLayer])

/-- Claim C5: for every layer built by the canonical constructor and every
in-bounds coordinate pair, `get` returns a value in the closed interval
`[0, 1]` — the clamp in the spread transform guarantees this for arbitrary
raw noise values. -/
theorem claim_c5 (pnoise : ℚ → ℚ → ℚ) (params : NoiseParameters)
    (width height : ℤ) (scale : ℚ) (seed : ℤ) (l : BaseNoiseLayer)
    (hmk : mkBaseNoiseLayer pnoise params width height scale seed = .ok l)
    (x y : ℤ) (hx0 : 0 ≤ x) (hxw : x < l.width) (hy0 : 0 ≤ y)
    (hyh : y < l.height) :
    ∃ v, (layerGet pnoise l x y).1 = .ok v ∧ 0 ≤ v ∧ v ≤ 1 := by
  obtain ⟨m, hg, hw, hh, hmap⟩ := mkBaseNoiseLayer_ok hmk
  have hx' : x.toNat < width.toNat := by rw [hw] at hxw; omega
  have hy' : y.toNat < height.toNat := by rw [hh] at hyh; omega
  obtain ⟨rv, hcell⟩ := generateNoise_getElem hg hx' hy'
  have h01 : 0 ≤ transformNoiseValue rv ∧ transformNoiseValue rv ≤ 1 := by
    rw [show transformNoiseValue rv = max 0 (min 1 ((rv * 2 + 1) / 2)) from rfl]
    exact ⟨le_max_left _ _, max_le (by norm_num) (min_le_left _ _)⟩
  refine ⟨transformNoiseValue rv, ?_, h01.1, h01.2⟩
  rw [layerGet_inBounds hmap ⟨hx0, hxw, hy0, hyh⟩]
  simp [index2, hcell]

/-- Witness for C5: the concrete 1×1 canonical layer's single cell reads back
a value inside `[0, 1]`. -/
theorem claim_c5_witness :
    ∃ v, (layerGet constPnoise sampleLayer 0 0).1 = .ok v ∧ 0 ≤ v ∧ v ≤ 1 :=
  claim_c5 constPnoise heightParams 1 1 50 0 sampleLayer sampleLayer_mk
    0 0 (by norm_num) (by norm_num [sampleLayer])
    (by norm_num) (by norm_num [sampleLayer])

/-- Claim C7: on a layer built by the constructor, `get` raises the
out-of-bounds `ValueError` exactly when the coordinates are outside
`[0,width) × [0,height)`, leaving the layer state (hence its stored noise
map) unchanged, and in-bounds calls never raise. -/
theorem claim_c7 (pnoise : ℚ → ℚ → ℚ) (params : NoiseParameters)
    (width height : ℤ) (scale : ℚ) (seed : ℤ) (l : BaseNoiseLayer)
    (hmk : mkBaseNoiseLayer pnoise params width height scale seed = .ok l)
    (x y : ℤ) :
    (¬(0 ≤ x ∧ x < l.width ∧ 0 ≤ y ∧ y < l.height) →
      layerGet pnoise l x y =
        (.error (.valueError "Coordinates out of bounds"), l)) ∧
    ((0 ≤ x ∧ x < l.width ∧ 0 ≤ y ∧ y < l.height) →
      ∃ v, layerGet pnoise l x y = (.ok v, l)) := by
  constructor
  · intro hout
    simp only [layerGet, if_pos hout]
  · rintro ⟨hx0, hxw, hy0, hyh⟩
    obtain ⟨m, hg, hw, hh, hmap⟩ := mkBaseNoiseLayer_ok hmk
    have hx' : x.toNat < width.toNat := by rw [hw] at hxw; omega
    have hy' : y.toNat < height.toNat := by rw [hh] at hyh; omega
    obtain ⟨rv, hcell⟩ := generateNoise_getElem hg hx' hy'
    refine ⟨transformNoiseValue rv, ?_⟩
    rw [layerGet_inBounds hmap ⟨hx0, hxw, hy0, hyh⟩]
    simp [index2, hcell]

/-- Witness for C7: an out-of-bounds lookup on the concrete 1×1 layer raises
the out-of-bounds `ValueError` and returns the layer unchanged. -/
theorem claim_c7_witness :
    layerGet constPnoise sampleLayer 5 0 =
      (.error (.valueError "Coordinates out of bounds"), sampleLayer) :=
  (claim_c7 constPnoise heightParams 1 1 50 0 sampleLayer sampleLayer_mk 5 0).1
    (by norm_num [sampleLayer])

/-- Counterexample to C6 as stated: the constructor performs no validation —
with the non-positive width `-3` it succeeds, returning a layer with an empty
map, instead of failing with a configuration error. -/
theorem claim_c6_counterexample :
    ((-3 : ℤ) ≤ 0) ∧
    mkBaseNoiseLayer constPnoise heightParams (-3) 10 50 0 =
      .ok ⟨-3, 10, 50, 0, heightParams, some []⟩ := by
  exact ⟨by norm_num, rfl⟩

/-- Claim C6 as amended: the noise-layer constructor validates nothing;
construction fails only with the `ZeroDivisionError` that occurs when both
dimensions are at least 1 and `scale * scale_factor = 0`, and succeeds in
every other case — non-positive width, height or scale included. -/
theorem claim_c6 (pnoise : ℚ → ℚ → ℚ) (params : NoiseParameters)
    (width height : ℤ) (scale : ℚ) (seed : ℤ) :
    (∃ l, mkBaseNoiseLayer pnoise params width height scale seed = .ok l) ↔
      ¬(1 ≤ width ∧ 1 ≤ height ∧ scale * params.scale_factor = 0) := by
  constructor
  · rintro ⟨l, hl⟩ ⟨hw, hh, hden⟩
    obtain ⟨m, hg, -, -, -⟩ := mkBaseNoiseLayer_ok hl
    have herr : generateNoise pnoise seed scale params width height =
        .error .zeroDivisionError := by
      have hwn : width.toNat = (width.toNat - 1) + 1 := by omega
      have hhn : height.toNat = (height.toNat - 1) + 1 := by omega
      simp only [generateNoise]
      rw [hwn, List.range_succ_eq_map]
      apply mapME_cons_error
      rw [hhn, List.range_succ_eq_map]
      apply mapME_cons_error
      simp [pydiv, hden, exbind_error]
    rw [herr] at hg
    exact Except.noConfusion hg
  · intro hneg
    have hgen : ∃ m,
        generateNoise pnoise seed scale params width height = .ok m := by
      by_cases hden : scale * params.scale_factor = 0
      · have hwh : width.toNat = 0 ∨ height.toNat = 0 := by
          rcases not_and_or.mp hneg with h | h
          · left; omega
          · rcases not_and_or.mp h with h2 | h2
            · right; omega
            · exact absurd hden h2
        rcases hwh with h0 | h0
        · exact ⟨[], by simp only [generateNoise, h0, List.range_zero, mapME]⟩
        · simp only [generateNoise, h0, List.range_zero, mapME]
          apply mapME_ok_of_all
          intro a _
          exact ⟨[], rfl⟩
      · simp only [generateNoise]
        apply mapME_ok_of_all
        intro x _
        apply mapME_ok_of_all
        intro y _
        refine ⟨transformNoiseValue (pnoise
          (((x : ℚ) + (seed : ℚ)) / (scale * params.scale_factor))
          (((y : ℚ) + (seed : ℚ)) / (scale * params.scale_factor))), ?_⟩
        simp only [pydiv, if_neg hden, exbind_ok, expure]
    obtain ⟨m, hm⟩ := hgen
    exact ⟨⟨width, height, scale, seed, params, some m⟩,
      by simp only [mkBaseNoiseLayer, hm, exbind_ok, expure]⟩

/-- Witness for the amended C6: an ordinary parameter set (positive
dimensions, nonzero scale) constructs successfully. -/
theorem claim_c6_witness :
    ∃ l, mkBaseNoiseLayer constPnoise heightParams 4 4 50 0 = .ok l :=
  (claim_c6 constPnoise heightParams 4 4 50 0).mpr
    (by norm_num [heightParams])

theorem bump_hasKey (c : List (String × ℕ)) (key r : String) :
    hasKey (c.map fun p => if p.1 = key then (p.1, p.2 + 1) else p) r =
      hasKey c r := by
  induction c with
  | nil => rfl
  | cons p rest ih =>
    by_cases hp : p.1 = key
    · simp [hasKey, hp, ih]
    · simp [hasKey, hp, ih]

theorem bump_lookup_eq (c : List (String × ℕ)) (key : String)
    (hk : hasKey c key = true) :
    lookupCount (c.map fun p => if p.1 = key then (p.1, p.2 + 1) else p) key =
      lookupCount c key + 1 := by
  induction c with
  | nil => simp [hasKey] at hk
  | cons p rest ih =>
    by_cases hp : p.1 = key
    · simp [lookupCount, hp]
    · have hk' : hasKey rest key = true := by simpa [hasKey, hp] using hk
      simp [lookupCount, hp, ih hk']

theorem bump_lookup_ne (c : List (String × ℕ)) (key r : String)
    (hne : r ≠ key) :
    lookupCount (c.map fun p => if p.1 = key then (p.1, p.2 + 1) else p) r =
      lookupCount c r := by
  induction c with
  | nil => rfl
  | cons p rest ih =>
    by_cases hp : p.1 = key
    · have hpr : ¬(p.1 = r) := by
        rw [hp]
        exact Ne.symm hne
      have hkr : key ≠ r := Ne.symm hne
      simp [lookupCount, hp, hpr, hkr, ih]
    · by_cases hpr : p.1 = r
      · simp [lookupCount, hp, hpr, hne]
      · simp [lookupCount, hp, hpr, ih]

theorem init_hasKey (rts : List String) (r : String) (hr : r ∈ rts) :
    hasKey (rts.map fun t => (t, 0)) r = true := by
  induction rts with
  | nil => simp at hr
  | cons t rest ih =>
    rcases List.mem_cons.mp hr with h | h
    · simp [hasKey, h]
    · simp [hasKey, ih h]

theorem init_lookup (rts : List String) (r : String) :
    lookupCount (rts.map fun t => (t, 0)) r = 0 := by
  induction rts with
  | nil => rfl
  | cons t rest ih =>
    by_cases ht : t = r
    · simp [lookupCount, ht]
    · simp [lookupCount, ht, ih]

theorem statsRow_spec :
    ∀ (row : List (Option Biome)) (acc : List (String × ℕ) × ℕ),
      (∀ cell ∈ row, ∀ b : Biome, cell = some b →
        hasKey acc.1 b.resources.type = true) →
      ∃ c', statsRow row acc = .ok (c', acc.2 + countSome row) ∧
        (∀ r, hasKey c' r = hasKey acc.1 r) ∧
        (∀ r, lookupCount c' r = lookupCount acc.1 r + countType r row) := by
  intro row
  induction row with
  | nil =>
    intro acc _
    exact ⟨acc.1, by simp [statsRow, countSome], fun r => rfl,
      fun r => by simp [countType]⟩
  | cons cell rest ih =>
    intro acc hcov
    cases cell with
    | none =>
      obtain ⟨c', hc', hkeys, hlook⟩ :=
        ih acc (fun c hc b hb => hcov c (List.mem_cons_of_mem _ hc) b hb)
      refine ⟨c', ?_, hkeys, ?_⟩
      · simp only [statsRow, statsCell, exbind_ok]
        rw [hc']
        simp [countSome]
      · intro r
        rw [hlook r]
        simp [countType]
    | some b =>
      have hk : hasKey acc.1 b.resources.type = true :=
        hcov (some b) (List.mem_cons_self _ _) b rfl
      have hbump : bumpCount acc.1 b.resources.type =
          .ok (acc.1.map fun p =>
            if p.1 = b.resources.type then (p.1, p.2 + 1) else p) := by
        simp [bumpCount, hk]
      have hcov2 : ∀ c ∈ rest, ∀ b' : Biome, c = some b' →
          hasKey (acc.1.map fun p =>
            if p.1 = b.resources.type then (p.1, p.2 + 1) else p)
            b'.resources.type = true := by
        intro c hc b' hb'
        rw [bump_hasKey]
        exact hcov c (List.mem_cons_of_mem _ hc) b' hb'
      obtain ⟨c', hc', hkeys, hlook⟩ :=
        ih ((acc.1.map fun p =>
          if p.1 = b.resources.type then (p.1, p.2 + 1) else p),
          acc.2 + 1) hcov2
      refine ⟨c', ?_, ?_, ?_⟩
      · simp only [statsRow, statsCell]
        rw [hbump, exbind_ok, expure, exbind_ok, hc']
        have htot : acc.2 + 1 + countSome rest =
            acc.2 + countSome (some b :: rest) := by
          simp only [countSome]
          omega
        rw [htot]
      · intro r
        rw [hkeys r, bump_hasKey]
      · intro r
        rw [hlook r]
        by_cases hr : r = b.resources.type
        · subst hr
          rw [bump_lookup_eq _ _ hk]
          simp only [countType, eq_self_iff_true, if_true]
          omega
        · rw [bump_lookup_ne _ _ _ hr]
          simp only [countType]
          rw [if_neg (Ne.symm hr)]
          omega

theorem statsGrid_spec :
    ∀ (grid : List (List (Option Biome))) (acc : List (String × ℕ) × ℕ),
      (∀ row ∈ grid, ∀ cell ∈ row, ∀ b : Biome, cell = some b →
        hasKey acc.1 b.resources.type = true) →
      ∃ c', statsGrid grid acc = .ok (c', acc.2 + matchedCellCount grid) ∧
        (∀ r, hasKey c' r = hasKey acc.1 r) ∧
        (∀ r, lookupCount c' r =
          lookupCount acc.1 r + resourceCellCount r grid) := by
  intro grid
  induction grid with
  | nil =>
    intro acc _
    exact ⟨acc.1, by simp [statsGrid, matchedCellCount], fun r => rfl,
      fun r => by simp [resourceCellCount]⟩
  | cons row rest ih =>
    intro acc hcov
    obtain ⟨c1, hc1, hkeys1, hlook1⟩ := statsRow_spec row acc
      (fun c hc b hb => hcov row (List.mem_cons_self _ _) c hc b hb)
    have hcov2 : ∀ row' ∈ rest, ∀ cell ∈ row', ∀ b : Biome, cell = some b →
        hasKey c1 b.resources.type = true := by
      intro row' hrow' cell hcell b hb
      rw [hkeys1]
      exact hcov row' (List.mem_cons_of_mem _ hrow') cell hcell b hb
    obtain ⟨c2, hc2, hkeys2, hlook2⟩ := ih (c1, acc.2 + countSome row) hcov2
    refine ⟨c2, ?_, fun r => by rw [hkeys2 r, hkeys1 r], fun r => ?_⟩
    · simp only [statsGrid]
      rw [hc1, exbind_ok, hc2]
      have htot : acc.2 + countSome row + matchedCellCount rest =
          acc.2 + matchedCellCount (row :: rest) := by
        simp only [matchedCellCount]
        omega
      rw [htot]
    · rw [hlook2 r, hlook1 r]
      simp only [resourceCellCount]
      omega

theorem countSome_allNone :
    ∀ (row : List (Option Biome)), (∀ cell ∈ row, cell = none) →
      countSome row = 0 := by
  intro row
  induction row with
  | nil =>
    intro _
    rfl
  | cons cell rest ih =>
    intro h
    have hc := h cell (List.mem_cons_self _ _)
    subst hc
    simp [countSome, ih (fun c hc => h c (List.mem_cons_of_mem _ hc))]

theorem matchedCellCount_allNone :
    ∀ (grid : List (List (Option Biome))),
      (∀ row ∈ grid, ∀ cell ∈ row, cell = none) →
      matchedCellCount grid = 0 := by
  intro grid
  induction grid with
  | nil =>
    intro _
    rfl
  | cons row rest ih =>
    intro h
    have h1 := countSome_allNone row (h row (List.mem_cons_self _ _))
    have h2 := ih (fun r hr c hc => h r (List.mem_cons_of_mem _ hr) c hc)
    simp [matchedCellCount, h1, h2]

/-- Claim C8: for every classified grid whose matched cells all carry a known
resource type, the aggregator succeeds and reports, for every resource type,
the count of matched cells carrying it; the displayed percentage is
`count / total_matched_cells * 100` when any cell matched, and over an
all-unmatched grid it is `0` for every resource type, with no division by
zero and no error raised. -/
theorem claim_c8 (resource_types : List String)
    (grid : List (List (Option Biome)))
    (hcov : ∀ row ∈ grid, ∀ cell ∈ row, ∀ b : Biome, cell = some b →
      b.resources.type ∈ resource_types) :
    ∃ counts total,
      updateResourceStats resource_types grid = .ok (counts, total) ∧
      total = matchedCellCount grid ∧
      (∀ r, lookupCount counts r = resourceCellCount r grid) ∧
      (0 < total → ∀ r, resourcePercentage (lookupCount counts r) total =
        (lookupCount counts r : ℚ) / (total : ℚ) * 100) ∧
      ((∀ row ∈ grid, ∀ cell ∈ row, cell = none) →
        ∀ r, resourcePercentage (lookupCount counts r) total = 0) := by
  have hcov' : ∀ row ∈ grid, ∀ cell ∈ row, ∀ b : Biome, cell = some b →
      hasKey ((resource_types.map fun t => (t, 0)) : List (String × ℕ))
        b.resources.type = true :=
    fun row hrow cell hcell b hb =>
      init_hasKey _ _ (hcov row hrow cell hcell b hb)
  obtain ⟨c', hc', hkeys, hlook⟩ :=
    statsGrid_spec grid (resource_types.map fun t => (t, 0), 0) hcov'
  refine ⟨c', matchedCellCount grid, ?_, rfl, ?_, ?_, ?_⟩
  · simp only [updateResourceStats]
    rw [hc']
    simp
  · intro r
    rw [hlook r, init_lookup]
    omega
  · intro hpos r
    simp [resourcePercentage, hpos]
  · intro hnull r
    have h0 : matchedCellCount grid = 0 := matchedCellCount_allNone grid hnull
    simp [resourcePercentage, h0]

/-- Witness for C8: over a 1×2 all-unmatched grid with one known resource
type, the aggregator returns counts and reports `0` percent without raising. -/
theorem claim_c8_witness :
    ∃ counts total,
      updateResourceStats ["wood"] nullGrid = .ok (counts, total) ∧
      total = matchedCellCount nullGrid ∧
      (∀ r, lookupCount counts r = resourceCellCount r nullGrid) ∧
      (0 < total → ∀ r, resourcePercentage (lookupCount counts r) total =
        (lookupCount counts r : ℚ) / (total : ℚ) * 100) ∧
      ((∀ row ∈ nullGrid, ∀ cell ∈ row, cell = none) →
        ∀ r, resourcePercentage (lookupCount counts r) total = 0) :=
  claim_c8 ["wood"] nullGrid (by simp [nullGrid])

end Fluorite
